import Mathlib

/-!
Shallow embedding of the team/invitation workflow of the HackathonApp
backend (src/backend).  The database state is a record of entity tables
(lists of rows mirroring the SQLAlchemy ORM models in
src/backend/models); each repository operation of
src/backend/repositories/team.py becomes a Lean function from the
committed database state to the new committed state together with the
operation's outcome (returned value, or the raised exception).

Modelling conventions:
* Each repository method opens one session and commits once; an
  exception before the commit leaves the database unchanged, so an
  operation is a pure function `DB -> DB x Except TeamError A`.
* Python `ValueError` and `AttributeError` become the two constructors
  of `TeamError`.
* Timestamps are a logical clock: `DB.now` is the value `datetime.now`
  would return during the call.  Timestamp columns that no embedded
  operation ever reads (`created_at`/`updated_at` of teams, `joined_at`
  of team members, `registration_date`, `created_at` of invitations)
  are omitted; `updated_at` of invitations and `created_at` of users
  are kept because the code reads or refreshes them.
* Primary keys are handed out from the counter `DB.next_id`; row
  updates through a primary-key lookup are modelled by mapping over the
  table with an id test (identical under primary-key uniqueness).
-/

namespace HackathonApp

/-- Hackathon status enum (models/hackathon.py, `HackathonStatus`). -/
inductive HackathonStatus
  | registration
  | inProgress
  | finished
deriving DecidableEq

/-- Team member role enum (models/team.py, `TeamMemberRole`). -/
inductive TeamMemberRole
  | captain
  | member
deriving DecidableEq

/-- Invitation status enum (models/team.py, `InvitationStatus`). -/
inductive InvitationStatus
  | pending
  | accepted
  | rejected
deriving DecidableEq

/-- Row of `hackathons` (models/hackathon.py, `HackathonOrm`). -/
structure Hackathon where
  id : Nat
  name : String
  description : String
  status : HackathonStatus
  min_team_size : Nat
  max_team_size : Nat
deriving DecidableEq

/-- Row of `teams` (models/team.py, `TeamOrm`).  Note: `TeamOrm` has no
`max_team_size` column; the only `max_team_size` column of the data model
is on `HackathonOrm`. -/
structure Team where
  id : Nat
  name : String
  description : Option String
  hackathon_id : Nat
  captain_id : Nat
deriving DecidableEq

/-- Row of `team_members` (models/team.py, `TeamMemberOrm`). -/
structure TeamMember where
  id : Nat
  team_id : Nat
  user_id : Nat
  role : TeamMemberRole
deriving DecidableEq

/-- Row of `hackathon_registrations` (models/hackathon.py,
`HackathonRegistrationOrm`).  `team_id` carries `ondelete = SET NULL`. -/
structure Registration where
  id : Nat
  hackathon_id : Nat
  user_id : Nat
  team_id : Option Nat
deriving DecidableEq

/-- Row of `team_invitations` (models/team.py, `TeamInvitationOrm`). -/
structure Invitation where
  id : Nat
  team_id : Nat
  inviter_id : Nat
  invitee_id : Nat
  status : InvitationStatus
  message : Option String
  updated_at : Nat
deriving DecidableEq

/-- Row of `users` (models/user.py, `UserOrm`), the columns read by
`search_users`. -/
structure User where
  id : Nat
  telegram_username : String
  full_name : Option String
  position : Option String
  about : Option String
  created_at : Nat
deriving DecidableEq

/-- Row of `user_skills` (models/user.py, `UserSkillOrm`). -/
structure UserSkill where
  id : Nat
  user_id : Nat
  skill_name : String
deriving DecidableEq

/-- The committed database state. -/
structure DB where
  hackathons : List Hackathon
  users : List User
  user_skills : List UserSkill
  registrations : List Registration
  teams : List Team
  team_members : List TeamMember
  invitations : List Invitation
  next_id : Nat
  now : Nat
deriving DecidableEq

/-- Payload `TeamCreate` (schemas/team.py). -/
structure TeamCreate where
  name : String
  description : Option String
  hackathon_id : Nat
deriving DecidableEq

/-- Payload `TeamInvitationCreate` (schemas/team.py). -/
structure TeamInvitationCreate where
  team_id : Nat
  invitee_id : Nat
  message : Option String
deriving DecidableEq

/-- Payload `UserSearchFilters` (schemas/team.py).  `TeamInvitationUpdate`
(schemas/team.py lines 123-138) is a single field `status :
InvitationStatus`; it is passed below as a bare `InvitationStatus`, whose
three values `pending`, `accepted`, `rejected` are all accepted by the
schema. -/
structure UserSearchFilters where
  skills : Option (List String)
  search : Option String
  position : Option String
deriving DecidableEq

/-- Exceptions raised by the repository code: `ValueError` for business
rule failures, `AttributeError` for an access to an attribute an object
does not define. -/
inductive TeamError
  | valueError (msg : String)
  | attributeError (msg : String)
deriving DecidableEq

/-- `TeamRepository.create_team` (repositories/team.py lines 21-93).
Checks: hackathon exists; hackathon status is registration; captain holds
a registration; team name unused in this hackathon.  On success inserts
the team row and the captain member row and points the captain's
registration at the new team, all committed together. -/
def create_team (db : DB) (team_data : TeamCreate) (captain_id : Nat) :
    DB × Except TeamError Team :=
  match db.hackathons.find? (fun h => h.id == team_data.hackathon_id) with
  | none => (db, .error (.valueError "Хакатон не найден"))
  | some hackathon =>
    if hackathon.status ≠ HackathonStatus.registration then
      (db, .error (.valueError "Нельзя создать команду для хакатона не в статусе регистрации"))
    else if (db.registrations.find? (fun r =>
        r.hackathon_id == team_data.hackathon_id && r.user_id == captain_id)).isNone then
      (db, .error (.valueError "Вы не зарегистрированы на этот хакатон"))
    else if (db.teams.find? (fun t =>
        t.hackathon_id == team_data.hackathon_id && t.name == team_data.name)).isSome then
      (db, .error (.valueError "Команда с таким названием уже существует в этом хакатоне"))
    else
      let team : Team :=
        { id := db.next_id
          name := team_data.name
          description := team_data.description
          hackathon_id := team_data.hackathon_id
          captain_id := captain_id }
      let team_member : TeamMember :=
        { id := db.next_id + 1
          team_id := team.id
          user_id := captain_id
          role := TeamMemberRole.captain }
      ({ db with
          teams := db.teams ++ [team]
          team_members := db.team_members ++ [team_member]
          registrations := db.registrations.map (fun r =>
            if r.hackathon_id == team_data.hackathon_id && r.user_id == captain_id then
              { r with team_id := some team.id }
            else r)
          next_id := db.next_id + 2 },
       .ok team)

/-- `TeamRepository.add_team_member` (repositories/team.py lines 248-310).
After the existence, registration and duplicate-membership checks the
source evaluates `team.max_team_size` (line 283) — but `TeamOrm`
(models/team.py lines 37-54) defines no `max_team_size` attribute (the
column exists only on `HackathonOrm`), so Python raises `AttributeError`
there and the insert of lines 286-307 is never reached. -/
def add_team_member (db : DB) (team_id user_id : Nat) (role : TeamMemberRole) :
    DB × Except TeamError TeamMember :=
  match db.teams.find? (fun t => t.id == team_id) with
  | none => (db, .error (.valueError "Команда не найдена"))
  | some team =>
    if (db.registrations.find? (fun r =>
        r.hackathon_id == team.hackathon_id && r.user_id == user_id)).isNone then
      (db, .error (.valueError "Пользователь не зарегистрирован на этот хакатон"))
    else if (db.team_members.find? (fun m =>
        m.team_id == team_id && m.user_id == user_id)).isSome then
      (db, .error (.valueError "Пользователь уже состоит в команде"))
    else
      -- members_count is computed (lines 279-281), then line 283 reads
      -- team.max_team_size and fails whatever the count is
      let members_count := (db.team_members.filter (fun m => m.team_id == team_id)).length
      let _ := members_count
      let _ := role
      (db, .error (.attributeError "TeamOrm object has no attribute max_team_size"))

/-- `TeamRepository.remove_team_member` (repositories/team.py lines
313-356).  Authorization (self-removal or captain) is checked before the
captain-removal rule; an absent member row yields `False` (no error). -/
def remove_team_member (db : DB) (team_id member_user_id remover_user_id : Nat) :
    DB × Except TeamError Bool :=
  match db.teams.find? (fun t => t.id == team_id) with
  | none => (db, .error (.valueError "Команда не найдена"))
  | some team =>
    if member_user_id ≠ remover_user_id ∧ team.captain_id ≠ remover_user_id then
      (db, .error (.valueError "Недостаточно прав для удаления участника"))
    else if member_user_id = team.captain_id then
      (db, .error (.valueError "Капитан не может удалить себя из команды"))
    else
      match db.team_members.find? (fun m =>
          m.team_id == team_id && m.user_id == member_user_id) with
      | none => (db, .ok false)
      | some member =>
        ({ db with
            team_members := db.team_members.filter (fun m => m.id != member.id)
            registrations := db.registrations.map (fun r =>
              if r.hackathon_id == team.hackathon_id && r.user_id == member_user_id then
                { r with team_id := none }
              else r) },
         .ok true)

/-- `TeamRepository.delete_team` (repositories/team.py lines 190-208).
The ORM delete of the team row triggers the declared foreign-key
policies: `team_members.team_id` and `team_invitations.team_id` carry
`ondelete = CASCADE` (models/team.py lines 64 and 83) so those rows are
deleted; `hackathon_registrations.team_id` carries `ondelete = SET NULL`
(models/hackathon.py lines 67-70) so those rows are kept with a null
team reference. -/
def delete_team (db : DB) (team_id user_id : Nat) : DB × Except TeamError Bool :=
  match db.teams.find? (fun t => t.id == team_id) with
  | none => (db, .ok false)
  | some team =>
    if team.captain_id ≠ user_id then
      (db, .error (.valueError "Только капитан может удалить команду"))
    else
      ({ db with
          teams := db.teams.filter (fun t => t.id != team_id)
          team_members := db.team_members.filter (fun m => m.team_id != team_id)
          invitations := db.invitations.filter (fun i => i.team_id != team_id)
          registrations := db.registrations.map (fun r =>
            if r.team_id == some team_id then { r with team_id := none } else r) },
       .ok true)

/-- `TeamRepository.create_invitation` (repositories/team.py lines
360-426). -/
def create_invitation (db : DB) (invitation_data : TeamInvitationCreate)
    (inviter_id : Nat) : DB × Except TeamError Invitation :=
  match db.teams.find? (fun t => t.id == invitation_data.team_id) with
  | none => (db, .error (.valueError "Команда не найдена"))
  | some team =>
    if team.captain_id ≠ inviter_id then
      (db, .error (.valueError "Только капитан может приглашать в команду"))
    else if inviter_id = invitation_data.invitee_id then
      (db, .error (.valueError "Нельзя пригласить самого себя"))
    else if (db.registrations.find? (fun r =>
        r.hackathon_id == team.hackathon_id && r.user_id == invitation_data.invitee_id)).isNone then
      (db, .error (.valueError "Пользователь не зарегистрирован на этот хакатон"))
    else if (db.team_members.find? (fun m =>
        m.team_id == invitation_data.team_id && m.user_id == invitation_data.invitee_id)).isSome then
      (db, .error (.valueError "Пользователь уже состоит в команде"))
    else if (db.invitations.find? (fun i =>
        i.team_id == invitation_data.team_id && i.invitee_id == invitation_data.invitee_id &&
        i.status == InvitationStatus.pending)).isSome then
      (db, .error (.valueError "Пользователю уже отправлено приглашение"))
    else
      let invitation : Invitation :=
        { id := db.next_id
          team_id := invitation_data.team_id
          inviter_id := inviter_id
          invitee_id := invitation_data.invitee_id
          status := InvitationStatus.pending
          message := invitation_data.message
          updated_at := db.now }
      ({ db with invitations := db.invitations ++ [invitation], next_id := db.next_id + 1 },
       .ok invitation)

/-- The wrapping applied at repositories/team.py line 466 when the
embedded `add_team_member` of an accepted invitation raises `ValueError`;
any other exception (line 462 catches only `ValueError`) propagates
unchanged. -/
def acceptWrap : TeamError → TeamError
  | .valueError msg => .valueError ("Не удалось принять приглашение: " ++ msg)
  | e => e

/-- `TeamRepository.update_invitation_status` (repositories/team.py lines
429-471).  A missing invitation returns `none` (no exception).  The
in-memory update sets the status and refreshes `updated_at`; on an
accepted invitation `add_team_member` runs in its own session against the
committed state.  If it raises `ValueError`, the status is put back to
`pending` and the outer session commits (persisting `pending` plus the
refreshed timestamp) before re-raising a wrapped error; if it raises
anything else, the outer session exits without committing, so none of the
in-memory changes persist. -/
def update_invitation_status (db : DB) (invitation_id : Nat)
    (new_status : InvitationStatus) (user_id : Nat) :
    DB × Except TeamError (Option Invitation) :=
  match db.invitations.find? (fun i => i.id == invitation_id) with
  | none => (db, .ok none)
  | some invitation =>
    if invitation.invitee_id ≠ user_id then
      (db, .error (.valueError "Только получатель может отвечать на приглашение"))
    else if invitation.status ≠ InvitationStatus.pending then
      (db, .error (.valueError "Приглашение уже было обработано"))
    else
      if new_status = InvitationStatus.accepted then
        match add_team_member db invitation.team_id user_id TeamMemberRole.member with
        | (db2, .error (.valueError msg)) =>
          ({ db2 with invitations := db2.invitations.map (fun i =>
              if i.id == invitation_id then
                { i with status := InvitationStatus.pending, updated_at := db.now }
              else i) },
           .error (acceptWrap (.valueError msg)))
        | (db2, .error e) => (db2, .error e)
        | (db2, .ok _) =>
          ({ db2 with invitations := db2.invitations.map (fun i =>
              if i.id == invitation_id then
                { i with status := new_status, updated_at := db.now }
              else i) },
           .ok (some { invitation with status := new_status, updated_at := db.now }))
      else
        ({ db with invitations := db.invitations.map (fun i =>
            if i.id == invitation_id then
              { i with status := new_status, updated_at := db.now }
            else i) },
         .ok (some { invitation with status := new_status, updated_at := db.now }))

/-- Route handler `remove_team_member` (router/team.py lines 246-265): a
`False` from the repository becomes HTTP 404, a `ValueError` becomes
HTTP 400, success returns 200. -/
def remove_member_route (db : DB) (team_id user_id current_user_id : Nat) : DB × Nat :=
  match remove_team_member db team_id user_id current_user_id with
  | (db2, .ok true) => (db2, 200)
  | (db2, .ok false) => (db2, 404)
  | (db2, .error _) => (db2, 400)

/-- Does the character list `pat` occur as a contiguous run inside `s`?
(Helper for SQL `ILIKE` with a pattern of the shape percent-term-percent.) -/
def charsContain : List Char → List Char → Bool
  | _, [] => true
  | [], _ :: _ => false
  | c :: rest, p :: ps => List.isPrefixOf (p :: ps) (c :: rest) || charsContain rest (p :: ps)

/-- `column ILIKE term-with-surrounding-percents`: case-insensitive substring
match (wildcard characters inside the term itself are not modelled; no
claim exercises them). -/
def ilikeContains (s term : String) : Bool :=
  charsContain s.toLower.toList term.toLower.toList

/-- `ILIKE` on a nullable column: SQL NULL compared with anything is not
true. -/
def ilikeOpt : Option String → String → Bool
  | none, _ => false
  | some s, term => ilikeContains s term

/-- The skill names attached to a user, in table order
(`user_skills.skill_name` rows of that user). -/
def user_skill_names (db : DB) (user_id : Nat) : List String :=
  (db.user_skills.filter (fun sk => sk.user_id == user_id)).map (fun sk => sk.skill_name)

/-- Skills filter of `search_users` (repositories/team.py lines 530-539):
the subquery groups the `user_skills` rows whose `skill_name` is in the
filter list by user and keeps users whose matching-row count is at least
the length of the list.  Applied only when the list is present and
non-empty. -/
def passes_skills (db : DB) (filters : UserSearchFilters) (user_id : Nat) : Bool :=
  match filters.skills with
  | none => true
  | some skills =>
    if skills.length > 0 then
      decide (skills.length ≤
        (db.user_skills.filter (fun sk =>
          sk.user_id == user_id && skills.contains sk.skill_name)).length)
    else true

/-- Hackathon filter of `search_users` (lines 521-528): restrict to users
holding a registration for the hackathon.  Python truthiness: the filter
is skipped both for `None` and for id `0`. -/
def passes_hackathon (db : DB) (hackathon_id : Option Nat) (user_id : Nat) : Bool :=
  match hackathon_id with
  | none => true
  | some h =>
    if h = 0 then true
    else db.registrations.any (fun r => r.hackathon_id == h && r.user_id == user_id)

/-- Free-text filter of `search_users` (lines 541-551): ILIKE over
handle, full name, position and about.  Skipped for `None` and for the
empty string (Python truthiness). -/
def passes_search (filters : UserSearchFilters) (u : User) : Bool :=
  match filters.search with
  | none => true
  | some s =>
    if s = "" then true
    else
      ilikeContains u.telegram_username s || ilikeOpt u.full_name s ||
      ilikeOpt u.position s || ilikeOpt u.about s

/-- Position filter of `search_users` (lines 553-556). -/
def passes_position (filters : UserSearchFilters) (u : User) : Bool :=
  match filters.position with
  | none => true
  | some p => if p = "" then true else ilikeOpt u.position p

/-- The combined row predicate of the `search_users` query. -/
def search_pred (db : DB) (filters : UserSearchFilters) (hackathon_id : Option Nat)
    (u : User) : Bool :=
  passes_hackathon db hackathon_id u.id && passes_skills db filters u.id &&
  passes_search filters u && passes_position filters u

/-- The set of users selected by the `search_users` query before ordering
and pagination (the `DISTINCT` join yields each qualifying user once). -/
def search_users_filtered (db : DB) (filters : UserSearchFilters)
    (hackathon_id : Option Nat) : List User :=
  db.users.filter (search_pred db filters hackathon_id)

/-- Insert into a list kept in descending `created_at` order. -/
def insertDesc (u : User) : List User → List User
  | [] => [u]
  | v :: rest =>
    if v.created_at ≤ u.created_at then u :: v :: rest else v :: insertDesc u rest

/-- `ORDER BY created_at DESC` (line 564). -/
def order_created_desc (l : List User) : List User :=
  l.foldr insertDesc []

/-- `TeamRepository.search_users` (repositories/team.py lines 505-601):
filtered rows, ordered by creation time descending, paginated with
`OFFSET skip LIMIT limit`; the returned total is the count of the
filtered rows before pagination.  (The per-user response dictionary of
lines 569-599 enriches each returned user; it neither adds nor removes
result rows and is not modelled.) -/
def search_users (db : DB) (filters : UserSearchFilters) (hackathon_id : Option Nat)
    (skip limit : Nat) : List User × Nat :=
  let filtered := search_users_filtered db filters hackathon_id
  (((order_created_desc filtered).drop skip).take limit, filtered.length)

/-- One call to a core workflow operation, with its arguments. -/
inductive TeamOp
  | createTeam (team_data : TeamCreate) (captain_id : Nat)
  | addMember (team_id user_id : Nat) (role : TeamMemberRole)
  | removeMember (team_id member_user_id remover_user_id : Nat)
  | createInvitation (invitation_data : TeamInvitationCreate) (inviter_id : Nat)
  | resolveInvitation (invitation_id : Nat) (new_status : InvitationStatus) (user_id : Nat)

/-- The committed database state after one core operation (whether the
call returned normally or raised). -/
def applyOp : TeamOp → DB → DB
  | .createTeam d c, db => (create_team db d c).1
  | .addMember t u r, db => (add_team_member db t u r).1
  | .removeMember t m r, db => (remove_team_member db t m r).1
  | .createInvitation d i, db => (create_invitation db d i).1
  | .resolveInvitation i s u, db => (update_invitation_status db i s u).1

/-- The committed state after a sequence of core operations. -/
def execOps (ops : List TeamOp) (db : DB) : DB :=
  ops.foldl (fun d op => applyOp op d) db

/-- Some user holds TeamMember rows in two different teams that belong to
the same hackathon. -/
def two_team_violation (db : DB) : Bool :=
  db.team_members.any (fun m1 => db.team_members.any (fun m2 =>
    m1.user_id == m2.user_id && m1.team_id != m2.team_id &&
    ((db.teams.find? (fun t => t.id == m1.team_id)).map (fun t => t.hackathon_id)).isSome &&
    ((db.teams.find? (fun t => t.id == m1.team_id)).map (fun t => t.hackathon_id) ==
     (db.teams.find? (fun t => t.id == m2.team_id)).map (fun t => t.hackathon_id))))

/-- Invitation table well-formedness: primary keys are unique and below
the id counter (true of every real database state; `next_id` models the
autoincrement source). -/
def inv_ids_ok (db : DB) : Prop :=
  (db.invitations.map (fun i => i.id)).Nodup ∧ ∀ i ∈ db.invitations, i.id < db.next_id

/-- Concrete state: hackathon 1 (status registration, max_team_size 2),
team 10 captained by user 1 with the captain member row, users 1 and 2
registered — the scenario of the spec with one seat still free. -/
def dbCap : DB :=
  { hackathons := [{ id := 1, name := "H", description := "d",
                     status := HackathonStatus.registration,
                     min_team_size := 1, max_team_size := 2 }]
    users := []
    user_skills := []
    registrations := [{ id := 1, hackathon_id := 1, user_id := 1, team_id := some 10 },
                      { id := 2, hackathon_id := 1, user_id := 2, team_id := none }]
    teams := [{ id := 10, name := "T", description := none,
                hackathon_id := 1, captain_id := 1 }]
    team_members := [{ id := 11, team_id := 10, user_id := 1,
                       role := TeamMemberRole.captain }]
    invitations := []
    next_id := 20
    now := 5 }

/-- Concrete state: as above but with a pending invitation 20 for user 2,
who holds no registration (so the embedded add of an acceptance fails
with the not-registered error). -/
def dbInv : DB :=
  { hackathons := [{ id := 1, name := "H", description := "d",
                     status := HackathonStatus.registration,
                     min_team_size := 1, max_team_size := 5 }]
    users := []
    user_skills := []
    registrations := [{ id := 1, hackathon_id := 1, user_id := 1, team_id := some 10 }]
    teams := [{ id := 10, name := "T", description := none,
                hackathon_id := 1, captain_id := 1 }]
    team_members := [{ id := 11, team_id := 10, user_id := 1,
                       role := TeamMemberRole.captain }]
    invitations := [{ id := 20, team_id := 10, inviter_id := 1, invitee_id := 2,
                      status := InvitationStatus.pending, message := none,
                      updated_at := 0 }]
    next_id := 30
    now := 7 }

/-- Concrete state: team 10 with captain 1 and member 2; user 3 is
registered but not a member and holds pending invitation 20. -/
def dbRm : DB :=
  { hackathons := [{ id := 1, name := "H", description := "d",
                     status := HackathonStatus.registration,
                     min_team_size := 1, max_team_size := 5 }]
    users := []
    user_skills := []
    registrations := [{ id := 1, hackathon_id := 1, user_id := 1, team_id := some 10 },
                      { id := 2, hackathon_id := 1, user_id := 2, team_id := some 10 },
                      { id := 3, hackathon_id := 1, user_id := 3, team_id := none }]
    teams := [{ id := 10, name := "T", description := none,
                hackathon_id := 1, captain_id := 1 }]
    team_members := [{ id := 11, team_id := 10, user_id := 1,
                       role := TeamMemberRole.captain },
                     { id := 12, team_id := 10, user_id := 2,
                       role := TeamMemberRole.member }]
    invitations := [{ id := 20, team_id := 10, inviter_id := 1, invitee_id := 3,
                      status := InvitationStatus.pending, message := none,
                      updated_at := 0 }]
    next_id := 30
    now := 7 }

/-- Concrete state: as `dbRm` but invitation 20 already rejected. -/
def dbTerm : DB :=
  { dbRm with
      invitations := [{ id := 20, team_id := 10, inviter_id := 1, invitee_id := 3,
                        status := InvitationStatus.rejected, message := none,
                        updated_at := 0 }] }

/-- Concrete state for search: one user with two identical skill rows
named python. -/
def dbSearch : DB :=
  { hackathons := []
    users := [{ id := 1, telegram_username := "alice", full_name := none,
                position := none, about := none, created_at := 0 }]
    user_skills := [{ id := 1, user_id := 1, skill_name := "python" },
                    { id := 2, user_id := 1, skill_name := "python" }]
    registrations := []
    teams := []
    team_members := []
    invitations := []
    next_id := 10
    now := 0 }

/-- Concrete state for search: one user with skill rows python and java. -/
def dbSearch2 : DB :=
  { dbSearch with
      user_skills := [{ id := 1, user_id := 1, skill_name := "python" },
                      { id := 2, user_id := 1, skill_name := "java" }] }

/-- Concrete initial state for operation sequences: hackathon 1 open for
registration, user 1 registered, no teams yet. -/
def dbSeq : DB :=
  { hackathons := [{ id := 1, name := "H", description := "d",
                     status := HackathonStatus.registration,
                     min_team_size := 1, max_team_size := 5 }]
    users := []
    user_skills := []
    registrations := [{ id := 1, hackathon_id := 1, user_id := 1, team_id := none }]
    teams := []
    team_members := []
    invitations := []
    next_id := 10
    now := 0 }

/-- User 1 creates team T1, then creates team T2, in the same hackathon. -/
def opsTwoTeams : List TeamOp :=
  [TeamOp.createTeam { name := "T1", description := none, hackathon_id := 1 } 1,
   TeamOp.createTeam { name := "T2", description := none, hackathon_id := 1 } 1]

/-- Claim C1: in a hackathon with max_team_size 2, with the team at one
member (strictly below the limit) and the target user registered and not
yet a member, `add_team_member` does not insert the member row and
succeed as the spec requires: it raises `AttributeError`, because line
283 of repositories/team.py reads `team.max_team_size` and `TeamOrm`
defines no such attribute.  The state is returned unchanged, so the call
can never succeed (nor produce the documented capacity error) on any
input that reaches the capacity check. -/
theorem add_member_capacity_check_crashes :
    (dbCap.hackathons.find? (fun h => h.id == 1)).map (fun h => h.max_team_size) = some 2 ∧
    (dbCap.team_members.filter (fun m => m.team_id == 10)).length = 1 ∧
    add_team_member dbCap 10 2 TeamMemberRole.member =
      (dbCap, .error (.attributeError "TeamOrm object has no attribute max_team_size")) := by
  refine ⟨rfl, rfl, rfl⟩

/-- Claim C3 counterexample: from a legal initial state (one registered
user, no teams, no violation) the two-operation sequence in which user 1
creates two differently-named teams of the same hackathon reaches a state
where user 1 holds TeamMember rows in two different teams of hackathon 1
— the claimed invariant fails on a reachable state, and no check in
`create_team` or `add_team_member` inspects membership in other teams of
the hackathon. -/
theorem two_teams_same_hackathon_reachable :
    two_team_violation dbSeq = false ∧
    two_team_violation (execOps opsTwoTeams dbSeq) = true := by
  refine ⟨rfl, by decide⟩

/-- Claim C8 counterexample: with the skills filter python, java, the
user whose only skill rows are python, python is returned by the search
(two rows match the list, meeting the count threshold of 2) although the
user does not possess java — membership in the results is not equivalent
to possessing every skill in the list. -/
theorem skills_filter_counting_cex :
    ({ id := 1, telegram_username := "alice", full_name := none,
       position := none, about := none, created_at := 0 } : User) ∈
      search_users_filtered dbSearch
        { skills := some ["python", "java"], search := none, position := none } none ∧
    "java" ∉ user_skill_names dbSearch 1 := by
  refine ⟨by decide, by decide⟩

/-- Helper: `add_team_member` raises on every input — each of its four
branches returns the state unchanged with an exception (the last one the
`AttributeError` of the capacity check), so no call ever inserts a row. -/
theorem add_team_member_fails (db : DB) (t u : Nat) (r : TeamMemberRole) :
    ∃ e, add_team_member db t u r = (db, .error e) := by
  unfold add_team_member
  cases db.teams.find? (fun x => x.id == t) with
  | none => exact ⟨_, rfl⟩
  | some team =>
    dsimp only
    split_ifs <;> exact ⟨_, rfl⟩

/-- Helper: `create_team` never touches the invitations table. -/
theorem create_team_invitations_eq (db : DB) (d : TeamCreate) (cid : Nat) :
    (create_team db d cid).1.invitations = db.invitations := by
  unfold create_team
  cases db.hackathons.find? (fun h => h.id == d.hackathon_id) with
  | none => rfl
  | some h =>
    dsimp only
    split_ifs <;> rfl

/-- Helper: `remove_team_member` never touches the invitations table. -/
theorem remove_member_invitations_eq (db : DB) (t m r : Nat) :
    (remove_team_member db t m r).1.invitations = db.invitations := by
  unfold remove_team_member
  cases db.teams.find? (fun x => x.id == t) with
  | none => rfl
  | some team =>
    dsimp only
    split_ifs
    · rfl
    · rfl
    · cases db.team_members.find? (fun x => x.team_id == t && x.user_id == m) with
      | none => rfl
      | some mem => rfl

/-- Helper: `create_invitation` keeps every existing invitation row. -/
theorem create_invitation_keeps_rows (db : DB) (d : TeamInvitationCreate) (iid : Nat)
    (i : Invitation) (hi : i ∈ db.invitations) :
    i ∈ (create_invitation db d iid).1.invitations := by
  unfold create_invitation
  cases db.teams.find? (fun x => x.id == d.team_id) with
  | none => exact hi
  | some team =>
    dsimp only
    split_ifs <;> first
      | exact hi
      | exact List.mem_append_left _ hi

/-- The team row `create_team` inserts on success. -/
def new_team (db : DB) (d : TeamCreate) (cid : Nat) : Team :=
  { id := db.next_id
    name := d.name
    description := d.description
    hackathon_id := d.hackathon_id
    captain_id := cid }

/-- The captain member row `create_team` inserts on success. -/
def new_captain_row (db : DB) (cid : Nat) : TeamMember :=
  { id := db.next_id + 1
    team_id := db.next_id
    user_id := cid
    role := TeamMemberRole.captain }

/-- Claim C5: the four `create_team` preconditions are checked in order
(hackathon existence, registration status, captain registration, unique
name), each failure yields its own error with the state unchanged, and
on success the team row, the captain member row and the captain's
registration update are committed as one unit. -/
theorem create_team_checks_and_effects (db : DB) (d : TeamCreate) (cid : Nat) :
    (db.hackathons.find? (fun h => h.id == d.hackathon_id) = none →
      create_team db d cid = (db, .error (.valueError "Хакатон не найден"))) ∧
    (∀ h, db.hackathons.find? (fun x => x.id == d.hackathon_id) = some h →
      h.status ≠ HackathonStatus.registration →
      create_team db d cid =
        (db, .error (.valueError "Нельзя создать команду для хакатона не в статусе регистрации"))) ∧
    (∀ h, db.hackathons.find? (fun x => x.id == d.hackathon_id) = some h →
      h.status = HackathonStatus.registration →
      db.registrations.find? (fun r =>
        r.hackathon_id == d.hackathon_id && r.user_id == cid) = none →
      create_team db d cid = (db, .error (.valueError "Вы не зарегистрированы на этот хакатон"))) ∧
    (∀ h reg, db.hackathons.find? (fun x => x.id == d.hackathon_id) = some h →
      h.status = HackathonStatus.registration →
      db.registrations.find? (fun r =>
        r.hackathon_id == d.hackathon_id && r.user_id == cid) = some reg →
      (db.teams.find? (fun t =>
        t.hackathon_id == d.hackathon_id && t.name == d.name)).isSome →
      create_team db d cid =
        (db, .error (.valueError "Команда с таким названием уже существует в этом хакатоне"))) ∧
    (∀ h reg, db.hackathons.find? (fun x => x.id == d.hackathon_id) = some h →
      h.status = HackathonStatus.registration →
      db.registrations.find? (fun r =>
        r.hackathon_id == d.hackathon_id && r.user_id == cid) = some reg →
      db.teams.find? (fun t =>
        t.hackathon_id == d.hackathon_id && t.name == d.name) = none →
      create_team db d cid =
        ({ db with
            teams := db.teams ++ [new_team db d cid]
            team_members := db.team_members ++ [new_captain_row db cid]
            registrations := db.registrations.map (fun r =>
              if r.hackathon_id == d.hackathon_id && r.user_id == cid then
                { r with team_id := some db.next_id }
              else r)
            next_id := db.next_id + 2 },
         .ok (new_team db d cid))) := by
  refine ⟨?_, ?_, ?_, ?_, ?_⟩
  · intro hnone
    unfold create_team
    rw [hnone]
  · intro h hfind hstat
    unfold create_team
    rw [hfind]
    dsimp only
    rw [if_pos hstat]
  · intro h hfind hstat hreg
    unfold create_team
    rw [hfind]
    dsimp only
    rw [if_neg (by simp [hstat]), hreg]
    rfl
  · intro h reg hfind hstat hreg hname
    unfold create_team
    rw [hfind]
    dsimp only
    rw [if_neg (by simp [hstat]), hreg]
    dsimp only [Option.isNone_some]
    rw [if_neg (by simp), if_pos hname]
  · intro h reg hfind hstat hreg hname
    unfold create_team
    rw [hfind]
    dsimp only
    rw [if_neg (by simp [hstat]), hreg, hname]
    rfl

/-- Claim C6: in `remove_team_member`, removing the captain fails and
removes nothing for every requester (the captain-removal rule fires for
authorized requesters; others already fail authorization), and a
requester who is neither the member being removed nor the captain always
gets the authorization error. -/
theorem remove_captain_always_fails (db : DB) (t mU rU : Nat) (team : Team)
    (hfind : db.teams.find? (fun x => x.id == t) = some team) :
    (mU = team.captain_id →
      (remove_team_member db t mU rU).1 = db ∧
      ∃ msg, (remove_team_member db t mU rU).2 = .error (.valueError msg)) ∧
    (mU ≠ rU → team.captain_id ≠ rU →
      remove_team_member db t mU rU =
        (db, .error (.valueError "Недостаточно прав для удаления участника"))) := by
  constructor
  · intro hcap
    unfold remove_team_member
    rw [hfind]
    dsimp only
    by_cases h1 : mU ≠ rU ∧ team.captain_id ≠ rU
    · rw [if_pos h1]
      exact ⟨rfl, _, rfl⟩
    · rw [if_neg h1, if_pos hcap]
      exact ⟨rfl, _, rfl⟩
  · intro hne hcne
    unfold remove_team_member
    rw [hfind]
    dsimp only
    rw [if_pos ⟨hne, hcne⟩]

/-- Claim C7: `delete_team` by the captain removes the team row and (by
the declared `ondelete = CASCADE` policies) its member rows and
invitations, while every registration row survives — rows that pointed at
the team get a null reference (`ondelete = SET NULL`), others are
untouched; any non-captain caller fails with the state unchanged. -/
theorem delete_team_cascade_effects (db : DB) (t uid : Nat) (team : Team)
    (hfind : db.teams.find? (fun x => x.id == t) = some team) :
    (uid = team.captain_id →
      delete_team db t uid =
        ({ db with
            teams := db.teams.filter (fun x => x.id != t)
            team_members := db.team_members.filter (fun m => m.team_id != t)
            invitations := db.invitations.filter (fun i => i.team_id != t)
            registrations := db.registrations.map (fun r =>
              if r.team_id == some t then { r with team_id := none } else r) },
         .ok true) ∧
      (∀ m ∈ (delete_team db t uid).1.team_members, m.team_id ≠ t) ∧
      (delete_team db t uid).1.registrations.length = db.registrations.length ∧
      (∀ r ∈ db.registrations,
        (r.team_id = some t →
          { r with team_id := none } ∈ (delete_team db t uid).1.registrations) ∧
        (r.team_id ≠ some t → r ∈ (delete_team db t uid).1.registrations))) ∧
    (uid ≠ team.captain_id →
      delete_team db t uid = (db, .error (.valueError "Только капитан может удалить команду"))) := by
  constructor
  · intro hcap
    have hmain : delete_team db t uid =
        ({ db with
            teams := db.teams.filter (fun x => x.id != t)
            team_members := db.team_members.filter (fun m => m.team_id != t)
            invitations := db.invitations.filter (fun i => i.team_id != t)
            registrations := db.registrations.map (fun r =>
              if r.team_id == some t then { r with team_id := none } else r) },
         .ok true) := by
      unfold delete_team
      rw [hfind]
      dsimp only
      rw [if_neg (by simp [hcap])]
    refine ⟨hmain, ?_, ?_, ?_⟩
    · intro m hm
      rw [hmain] at hm
      simp only [List.mem_filter, bne_iff_ne, ne_eq] at hm
      exact hm.2
    · rw [hmain]
      exact List.length_map _ _
    · intro r hr
      constructor
      · intro hpt
        rw [hmain]
        dsimp only
        have : ({ r with team_id := none } : Registration) =
            (fun r => if r.team_id == some t then { r with team_id := none } else r) r := by
          simp [hpt]
        rw [this]
        exact List.mem_map_of_mem _ hr
      · intro hnpt
        rw [hmain]
        dsimp only
        have : r = (fun r => if r.team_id == some t then { r with team_id := none } else r) r := by
          simp only [beq_iff_eq]
          rw [if_neg hnpt]
        rw [this]
        exact List.mem_map_of_mem _ hr
  · intro hne
    unfold delete_team
    rw [hfind]
    dsimp only
    rw [if_pos (by exact fun hh => hne hh.symm)]

/-- Claim C10: when the caller is authorized (self-removal or captain)
and the target is not the captain but holds no member row, the
repository returns `False` without changing anything and the route turns
that into HTTP 404, distinct from the 400 used for rule violations. -/
theorem remove_missing_member_404 (db : DB) (t mU rU : Nat) (team : Team)
    (hfind : db.teams.find? (fun x => x.id == t) = some team)
    (hauth : mU = rU ∨ team.captain_id = rU)
    (hnotcap : mU ≠ team.captain_id)
    (hmem : db.team_members.find? (fun m => m.team_id == t && m.user_id == mU) = none) :
    remove_team_member db t mU rU = (db, .ok false) ∧
    remove_member_route db t mU rU = (db, 404) := by
  have hrepo : remove_team_member db t mU rU = (db, .ok false) := by
    unfold remove_team_member
    rw [hfind]
    dsimp only
    rw [if_neg (by
      rintro ⟨h1, h2⟩
      rcases hauth with h | h
      · exact h1 h
      · exact h2 h)]
    rw [if_neg hnotcap, hmem]
  refine ⟨hrepo, ?_⟩
  unfold remove_member_route
  rw [hrepo]

/-- Helper: the status/timestamp rewrite of one invitation id commutes
with looking that id up. -/
theorem find?_status_after_update (l : List Invitation) (n : Nat)
    (ns : InvitationStatus) (ts : Nat) :
    (l.map (fun i => if i.id == n then { i with status := ns, updated_at := ts } else i)).find?
        (fun i => i.id == n) =
      (l.find? (fun i => i.id == n)).map
        (fun i => if i.id == n then { i with status := ns, updated_at := ts } else i) := by
  rw [List.find?_map]
  have hp : ((fun (i : Invitation) => i.id == n) ∘ fun (i : Invitation) =>
      if i.id == n then { i with status := ns, updated_at := ts } else i) =
      (fun (i : Invitation) => i.id == n) := by
    funext i
    show ((if i.id == n then { i with status := ns, updated_at := ts } else i).id == n) =
      (i.id == n)
    cases h : (i.id == n) with
    | true => simp [h]
    | false => simp [h]
  rw [hp]

/-- Claim C9: `update_invitation_status` accepts `pending` as the new
status: for a pending invitation resolved by its invitee with new status
`pending` the call succeeds, the stored status stays `pending` with the
update timestamp refreshed to the current clock, and no team member row
is created. -/
theorem resolve_pending_self_transition (db : DB) (inv_id uid : Nat) (inv : Invitation)
    (hfind : db.invitations.find? (fun i => i.id == inv_id) = some inv)
    (hinvitee : inv.invitee_id = uid)
    (hpending : inv.status = InvitationStatus.pending) :
    update_invitation_status db inv_id InvitationStatus.pending uid =
      ({ db with invitations := db.invitations.map (fun i =>
          if i.id == inv_id then
            { i with status := InvitationStatus.pending, updated_at := db.now }
          else i) },
       .ok (some { inv with status := InvitationStatus.pending, updated_at := db.now })) ∧
    (update_invitation_status db inv_id InvitationStatus.pending uid).1.team_members =
      db.team_members ∧
    ((update_invitation_status db inv_id InvitationStatus.pending uid).1.invitations.find?
        (fun i => i.id == inv_id)).map (fun i => (i.status, i.updated_at)) =
      some (InvitationStatus.pending, db.now) := by
  have hid : (inv.id == inv_id) = true := by simpa using List.find?_some hfind
  have hmain : update_invitation_status db inv_id InvitationStatus.pending uid =
      ({ db with invitations := db.invitations.map (fun i =>
          if i.id == inv_id then
            { i with status := InvitationStatus.pending, updated_at := db.now }
          else i) },
       .ok (some { inv with status := InvitationStatus.pending, updated_at := db.now })) := by
    unfold update_invitation_status
    rw [hfind]
    dsimp only
    rw [if_neg (by simp [hinvitee]), if_neg (by simp [hpending]),
      if_neg (by decide : ¬(InvitationStatus.pending = InvitationStatus.accepted))]
  have hid2 : inv.id = inv_id := by simpa using hid
  refine ⟨hmain, by rw [hmain], ?_⟩
  rw [hmain]
  dsimp only
  rw [find?_status_after_update, hfind]
  simp [hid2]

/-- Claim C2: accepting a pending invitation whose embedded
`add_team_member` call fails (it always does: a missing team, an absent
registration or an existing membership raise `ValueError`, and the
capacity check raises `AttributeError`) leaves the persisted status
`pending`, creates no team member row, leaves registrations untouched,
and surfaces the failure to the caller — a `ValueError` wrapped with the
acceptance message, anything else unchanged.  In particular the status
is never committed as `accepted` without the member row. -/
theorem accept_failure_leaves_pending (db : DB) (inv_id uid : Nat) (inv : Invitation)
    (e : TeamError)
    (hfind : db.invitations.find? (fun i => i.id == inv_id) = some inv)
    (hinvitee : inv.invitee_id = uid)
    (hpending : inv.status = InvitationStatus.pending)
    (hadd : (add_team_member db inv.team_id uid TeamMemberRole.member).2 = .error e) :
    (update_invitation_status db inv_id InvitationStatus.accepted uid).1.team_members =
      db.team_members ∧
    (update_invitation_status db inv_id InvitationStatus.accepted uid).1.registrations =
      db.registrations ∧
    ((update_invitation_status db inv_id InvitationStatus.accepted uid).1.invitations.find?
        (fun i => i.id == inv_id)).map (fun i => i.status) =
      some InvitationStatus.pending ∧
    (update_invitation_status db inv_id InvitationStatus.accepted uid).2 =
      .error (acceptWrap e) := by
  have hid : (inv.id == inv_id) = true := by simpa using List.find?_some hfind
  obtain ⟨e2, he2⟩ := add_team_member_fails db inv.team_id uid TeamMemberRole.member
  have hee : e2 = e := by
    rw [he2] at hadd
    exact (Except.error.inj hadd)
  subst hee
  have hstep : update_invitation_status db inv_id InvitationStatus.accepted uid =
      match (db, Except.error (ε := TeamError) (α := TeamMember) e2) with
      | (db2, .error (.valueError msg)) =>
        ({ db2 with invitations := db2.invitations.map (fun i =>
            if i.id == inv_id then
              { i with status := InvitationStatus.pending, updated_at := db.now }
            else i) },
         .error (acceptWrap (.valueError msg)))
      | (db2, .error e) => (db2, .error e)
      | (db2, .ok _) =>
        ({ db2 with invitations := db2.invitations.map (fun i =>
            if i.id == inv_id then
              { i with status := InvitationStatus.accepted, updated_at := db.now }
            else i) },
         .ok (some { inv with status := InvitationStatus.accepted, updated_at := db.now })) := by
    unfold update_invitation_status
    rw [hfind]
    dsimp only
    rw [if_neg (by simp [hinvitee]), if_neg (by simp [hpending]),
      if_pos rfl, he2]
  cases e2 with
  | valueError msg =>
    rw [hstep]
    refine ⟨rfl, rfl, ?_, rfl⟩
    dsimp only
    rw [find?_status_after_update, hfind]
    simp [show inv.id = inv_id from by simpa using hid]
  | attributeError msg =>
    rw [hstep]
    refine ⟨rfl, rfl, ?_, rfl⟩
    dsimp only
    rw [hfind]
    simp [hpending]

/-- Helper: rewriting the status of one invitation id (to a non-accepted
status, under unique ids) keeps every row's evolution inside the allowed
transitions: unchanged, or pending to a terminal status. -/
theorem map_update_keeps_transitions (db : DB) (inv_id : Nat) (inv0 : Invitation)
    (ns : InvitationStatus) (ts : Nat)
    (hwf : (db.invitations.map (fun i => i.id)).Nodup)
    (hf : db.invitations.find? (fun j => j.id == inv_id) = some inv0)
    (hp : inv0.status = InvitationStatus.pending)
    (hns : ns ≠ InvitationStatus.accepted)
    (i : Invitation) (hi : i ∈ db.invitations) :
    ∃ i' ∈ db.invitations.map (fun j =>
        if j.id == inv_id then { j with status := ns, updated_at := ts } else j),
      i'.id = i.id ∧
      (i'.status = i.status ∨
        (i.status = InvitationStatus.pending ∧
          (i'.status = InvitationStatus.accepted ∨ i'.status = InvitationStatus.rejected))) := by
  refine ⟨(fun j => if j.id == inv_id then { j with status := ns, updated_at := ts } else j) i,
    List.mem_map_of_mem _ hi, ?_⟩
  by_cases hii : i.id = inv_id
  · have hieq : i = inv0 := by
      have h0mem : inv0 ∈ db.invitations := List.mem_of_find?_eq_some hf
      have h0id : inv0.id = inv_id := by simpa using List.find?_some hf
      exact List.inj_on_of_nodup_map hwf hi h0mem (by rw [hii, h0id])
    have hbeq : (i.id == inv_id) = true := by simpa using hii
    have hsts : ((fun j =>
        if j.id == inv_id then { j with status := ns, updated_at := ts } else j) i).status = ns := by
      simp [hbeq]
    have hids : ((fun j =>
        if j.id == inv_id then { j with status := ns, updated_at := ts } else j) i).id = i.id := by
      simp [hbeq]
    refine ⟨hids, ?_⟩
    rw [hsts, hieq, hp]
    cases ns with
    | pending => exact Or.inl rfl
    | accepted => exact absurd rfl hns
    | rejected => exact Or.inr ⟨rfl, Or.inr rfl⟩
  · have hbeq : (i.id == inv_id) = false := by simpa using hii
    have hred : ((fun j =>
        if j.id == inv_id then { j with status := ns, updated_at := ts } else j) i) = i := by
      simp [hbeq]
    rw [hred]
    exact ⟨rfl, Or.inl rfl⟩

/-- Claim C4: across every core operation, an invitation row only ever
keeps its status or moves from `pending` to `accepted` or `rejected`
(under primary-key well-formedness); and resolving an invitation that is
no longer `pending` fails with the already-processed error, leaving the
state unchanged — no invitation leaves a terminal state. -/
theorem invitation_no_terminal_exit :
    (∀ (op : TeamOp) (db : DB), inv_ids_ok db →
      ∀ i ∈ db.invitations, ∃ i' ∈ (applyOp op db).invitations,
        i'.id = i.id ∧
        (i'.status = i.status ∨
          (i.status = InvitationStatus.pending ∧
            (i'.status = InvitationStatus.accepted ∨
             i'.status = InvitationStatus.rejected)))) ∧
    (∀ (db : DB) (inv_id : Nat) (ns : InvitationStatus) (uid : Nat) (inv : Invitation),
      db.invitations.find? (fun i => i.id == inv_id) = some inv →
      inv.invitee_id = uid → inv.status ≠ InvitationStatus.pending →
      update_invitation_status db inv_id ns uid =
        (db, .error (.valueError "Приглашение уже было обработано"))) := by
  constructor
  · intro op db hwf i hi
    cases op with
    | createTeam d c =>
      refine ⟨i, ?_, rfl, Or.inl rfl⟩
      show i ∈ (create_team db d c).1.invitations
      rw [create_team_invitations_eq]
      exact hi
    | addMember t u r =>
      obtain ⟨e, he⟩ := add_team_member_fails db t u r
      refine ⟨i, ?_, rfl, Or.inl rfl⟩
      show i ∈ (add_team_member db t u r).1.invitations
      rw [he]
      exact hi
    | removeMember t m r =>
      refine ⟨i, ?_, rfl, Or.inl rfl⟩
      show i ∈ (remove_team_member db t m r).1.invitations
      rw [remove_member_invitations_eq]
      exact hi
    | createInvitation d c =>
      exact ⟨i, create_invitation_keeps_rows db d c i hi, rfl, Or.inl rfl⟩
    | resolveInvitation inv_id ns uid =>
      simp only [applyOp]
      cases hf : db.invitations.find? (fun j => j.id == inv_id) with
      | none =>
        have hu : (update_invitation_status db inv_id ns uid).1 = db := by
          unfold update_invitation_status
          rw [hf]
        rw [hu]
        exact ⟨i, hi, rfl, Or.inl rfl⟩
      | some inv0 =>
        by_cases hv : inv0.invitee_id ≠ uid
        · have hu : (update_invitation_status db inv_id ns uid).1 = db := by
            unfold update_invitation_status
            rw [hf]
            dsimp only
            rw [if_pos hv]
          rw [hu]
          exact ⟨i, hi, rfl, Or.inl rfl⟩
        · by_cases hpn : inv0.status ≠ InvitationStatus.pending
          · have hu : (update_invitation_status db inv_id ns uid).1 = db := by
              unfold update_invitation_status
              rw [hf]
              dsimp only
              rw [if_neg hv, if_pos hpn]
            rw [hu]
            exact ⟨i, hi, rfl, Or.inl rfl⟩
          · have hp : inv0.status = InvitationStatus.pending := not_not.mp hpn
            by_cases hacc : ns = InvitationStatus.accepted
            · obtain ⟨e, he⟩ := add_team_member_fails db inv0.team_id uid TeamMemberRole.member
              cases e with
              | valueError msg =>
                have hu : (update_invitation_status db inv_id ns uid).1 =
                    { db with invitations := db.invitations.map (fun j =>
                        if j.id == inv_id then
                          { j with status := InvitationStatus.pending, updated_at := db.now }
                        else j) } := by
                  unfold update_invitation_status
                  rw [hf]
                  dsimp only
                  rw [if_neg hv, if_neg hpn, if_pos hacc, he]
                rw [hu]
                exact map_update_keeps_transitions db inv_id inv0 InvitationStatus.pending
                  db.now hwf.1 hf hp (by decide) i hi
              | attributeError msg =>
                have hu : (update_invitation_status db inv_id ns uid).1 = db := by
                  unfold update_invitation_status
                  rw [hf]
                  dsimp only
                  rw [if_neg hv, if_neg hpn, if_pos hacc, he]
                rw [hu]
                exact ⟨i, hi, rfl, Or.inl rfl⟩
            · have hu : (update_invitation_status db inv_id ns uid).1 =
                  { db with invitations := db.invitations.map (fun j =>
                      if j.id == inv_id then
                        { j with status := ns, updated_at := db.now }
                      else j) } := by
                unfold update_invitation_status
                rw [hf]
                dsimp only
                rw [if_neg hv, if_neg hpn, if_neg hacc]
              rw [hu]
              exact map_update_keeps_transitions db inv_id inv0 ns db.now hwf.1 hf hp hacc i hi
  · intro db inv_id ns uid inv hfind hinvitee hterm
    unfold update_invitation_status
    rw [hfind]
    dsimp only
    rw [if_neg (by simp [hinvitee]), if_pos hterm]

/-- Claim C3 amended: the duplicate-membership check of `add_team_member`
is scoped to the target team only — a user already holding a member row
in that very team is rejected with the already-a-member error and nothing
changes; no check anywhere inspects the user's member rows in other teams
of the same hackathon (and the two-team state is reachable, see the
counterexample). -/
theorem add_member_rejects_existing_member (db : DB) (t u : Nat) (r : TeamMemberRole)
    (team : Team) (reg : Registration) (mem : TeamMember)
    (hfind : db.teams.find? (fun x => x.id == t) = some team)
    (hreg : db.registrations.find? (fun x =>
      x.hackathon_id == team.hackathon_id && x.user_id == u) = some reg)
    (hmem : db.team_members.find? (fun m =>
      m.team_id == t && m.user_id == u) = some mem) :
    add_team_member db t u r =
      (db, .error (.valueError "Пользователь уже состоит в команде")) := by
  unfold add_team_member
  rw [hfind]
  dsimp only
  rw [hreg, hmem]
  rfl

/-- Helper: counting the skill rows of a user whose name is in the filter
list equals counting, among that user's skill names, those in the list. -/
theorem skill_rows_as_names (l : List UserSkill) (uid : Nat) (skills : List String) :
    (l.filter (fun sk => sk.user_id == uid && skills.contains sk.skill_name)).length =
    (((l.filter (fun sk => sk.user_id == uid)).map (fun sk => sk.skill_name)).filter
      (fun s => skills.contains s)).length := by
  induction l with
  | nil => rfl
  | cons a l ih =>
    simp only [List.contains_eq_any_beq] at ih ⊢
    by_cases hu : a.user_id = uid
    · by_cases hsn : a.skill_name ∈ skills
      · simp [List.filter_cons, hu, hsn, ih]
      · simp [List.filter_cons, hu, hsn, ih]
    · simp [List.filter_cons, hu, ih]

/-- Helper: when neither the name list nor the filter list has
duplicates, the row-count threshold of the skills subquery is equivalent
to possessing every skill in the list. -/
theorem nodup_count_iff (names skills : List String)
    (hn : names.Nodup) (hs : skills.Nodup) :
    (skills.length ≤ (names.filter (fun s => skills.contains s)).length ↔
      ∀ s ∈ skills, s ∈ names) := by
  constructor
  · intro hle s hmem
    by_contra hnot
    have hFnd : (names.filter (fun x => skills.contains x)).Nodup := hn.filter _
    have hsub : (names.filter (fun x => skills.contains x)).toFinset ⊆
        skills.toFinset.erase s := by
      intro x hx
      rw [List.mem_toFinset, List.mem_filter] at hx
      rw [Finset.mem_erase]
      constructor
      · rintro rfl
        exact hnot hx.1
      · rw [List.mem_toFinset]
        simpa using hx.2
    have h1 : (names.filter (fun x => skills.contains x)).length =
        (names.filter (fun x => skills.contains x)).toFinset.card :=
      (List.toFinset_card_of_nodup hFnd).symm
    have h2 : skills.toFinset.card = skills.length := List.toFinset_card_of_nodup hs
    have h3 : (names.filter (fun x => skills.contains x)).toFinset.card ≤
        (skills.toFinset.erase s).card := Finset.card_le_card hsub
    have h4 : (skills.toFinset.erase s).card = skills.toFinset.card - 1 :=
      Finset.card_erase_of_mem (List.mem_toFinset.mpr hmem)
    have h5 : 0 < skills.length := List.length_pos.mpr (List.ne_nil_of_mem hmem)
    omega
  · intro hall
    have hsub : skills.toFinset ⊆
        (names.filter (fun x => skills.contains x)).toFinset := by
      intro x hx
      rw [List.mem_toFinset] at hx
      rw [List.mem_toFinset, List.mem_filter]
      exact ⟨hall x hx, by simpa using hx⟩
    calc skills.length = skills.toFinset.card := (List.toFinset_card_of_nodup hs).symm
      _ ≤ (names.filter (fun x => skills.contains x)).toFinset.card :=
        Finset.card_le_card hsub
      _ ≤ (names.filter (fun x => skills.contains x)).length :=
        List.toFinset_card_le (l := names.filter (fun x => skills.contains x))

/-- Claim C8 amended: with a non-empty skills filter, a user is in the
search results exactly when the other active filters pass and the count
of the user's skill rows named in the list reaches the list's length;
when the list has no repeated entries and the user's skill rows carry no
duplicate names — the situations the counterexample exploits — this is
equivalent to possessing every skill in the list, as stated here. -/
theorem skills_filter_row_count_iff (db : DB) (filters : UserSearchFilters)
    (hackathon_id : Option Nat) (u : User) (skills : List String)
    (hsk : filters.skills = some skills) (hne : skills ≠ [])
    (hs : skills.Nodup) (hn : (user_skill_names db u.id).Nodup) :
    (u ∈ search_users_filtered db filters hackathon_id ↔
      (u ∈ db.users ∧ passes_hackathon db hackathon_id u.id = true ∧
       passes_search filters u = true ∧ passes_position filters u = true ∧
       ∀ s ∈ skills, s ∈ user_skill_names db u.id)) := by
  have hps : (passes_skills db filters u.id = true) ↔
      ∀ s ∈ skills, s ∈ user_skill_names db u.id := by
    unfold passes_skills
    rw [hsk]
    dsimp only
    rw [if_pos (show 0 < skills.length from List.length_pos.mpr hne)]
    rw [decide_eq_true_eq]
    unfold user_skill_names at hn ⊢
    rw [skill_rows_as_names]
    exact nodup_count_iff _ _ hn hs
  unfold search_users_filtered search_pred
  rw [List.mem_filter]
  simp only [Bool.and_eq_true]
  rw [hps]
  tauto

/-- Witness for C5: user 1 creates team T1 in hackathon 1 from the
initial state; all four checks pass and the three writes happen. -/
theorem create_team_checks_and_effects_witness :
    create_team dbSeq { name := "T1", description := none, hackathon_id := 1 } 1 =
      ({ dbSeq with
          teams := dbSeq.teams ++
            [new_team dbSeq { name := "T1", description := none, hackathon_id := 1 } 1]
          team_members := dbSeq.team_members ++ [new_captain_row dbSeq 1]
          registrations := dbSeq.registrations.map (fun r =>
            if r.hackathon_id == 1 && r.user_id == 1 then
              { r with team_id := some dbSeq.next_id }
            else r)
          next_id := dbSeq.next_id + 2 },
       .ok (new_team dbSeq { name := "T1", description := none, hackathon_id := 1 } 1)) := by
  exact (create_team_checks_and_effects dbSeq
      { name := "T1", description := none, hackathon_id := 1 } 1).2.2.2.2
    { id := 1, name := "H", description := "d", status := HackathonStatus.registration,
      min_team_size := 1, max_team_size := 5 }
    { id := 1, hackathon_id := 1, user_id := 1, team_id := none }
    rfl rfl rfl rfl

/-- Witness for C6: the captain removing themself fails and changes
nothing; an unrelated user removing member 2 gets the authorization
error. -/
theorem remove_captain_always_fails_witness :
    ((remove_team_member dbRm 10 1 1).1 = dbRm ∧
      ∃ msg, (remove_team_member dbRm 10 1 1).2 = .error (.valueError msg)) ∧
    remove_team_member dbRm 10 2 3 =
      (dbRm, .error (.valueError "Недостаточно прав для удаления участника")) := by
  refine ⟨(remove_captain_always_fails dbRm 10 1 1 _ rfl).1 rfl, ?_⟩
  exact (remove_captain_always_fails dbRm 10 2 3 _ rfl).2 (by decide) (by decide)

/-- Witness for C7: the captain deletes team 10; member rows of the team
disappear and the registrations survive with nulled references. -/
theorem delete_team_cascade_effects_witness :
    delete_team dbRm 10 1 =
      ({ dbRm with
          teams := dbRm.teams.filter (fun x => x.id != 10)
          team_members := dbRm.team_members.filter (fun m => m.team_id != 10)
          invitations := dbRm.invitations.filter (fun i => i.team_id != 10)
          registrations := dbRm.registrations.map (fun r =>
            if r.team_id == some 10 then { r with team_id := none } else r) },
       .ok true) ∧
    (∀ m ∈ (delete_team dbRm 10 1).1.team_members, m.team_id ≠ 10) ∧
    (delete_team dbRm 10 1).1.registrations.length = dbRm.registrations.length := by
  have h := (delete_team_cascade_effects dbRm 10 1 _ rfl).1 rfl
  exact ⟨h.1, h.2.1, h.2.2.1⟩

/-- Witness for C10: user 3 (registered, authorized by self-removal, not
the captain, not a member) gets `False` from the repository and 404 from
the route. -/
theorem remove_missing_member_404_witness :
    remove_team_member dbRm 10 3 3 = (dbRm, .ok false) ∧
    remove_member_route dbRm 10 3 3 = (dbRm, 404) :=
  remove_missing_member_404 dbRm 10 3 3 _ rfl (Or.inl rfl) (by decide) rfl

/-- Witness for C9: invitee 2 resolves pending invitation 20 with new
status `pending`; the stored status stays `pending` with a refreshed
timestamp and no member row appears. -/
theorem resolve_pending_self_transition_witness :
    (update_invitation_status dbInv 20 InvitationStatus.pending 2).1.team_members =
      dbInv.team_members ∧
    ((update_invitation_status dbInv 20 InvitationStatus.pending 2).1.invitations.find?
        (fun i => i.id == 20)).map (fun i => (i.status, i.updated_at)) =
      some (InvitationStatus.pending, dbInv.now) := by
  have h := resolve_pending_self_transition dbInv 20 2 _ rfl rfl rfl
  exact ⟨h.2.1, h.2.2⟩

/-- Witness for C2: invitee 2 accepts pending invitation 20 while holding
no registration; the embedded add fails, the status stays `pending`, no
member row is created and the wrapped error is raised. -/
theorem accept_failure_leaves_pending_witness :
    (update_invitation_status dbInv 20 InvitationStatus.accepted 2).1.team_members =
      dbInv.team_members ∧
    ((update_invitation_status dbInv 20 InvitationStatus.accepted 2).1.invitations.find?
        (fun i => i.id == 20)).map (fun i => i.status) =
      some InvitationStatus.pending ∧
    (update_invitation_status dbInv 20 InvitationStatus.accepted 2).2 =
      .error (acceptWrap (.valueError "Пользователь не зарегистрирован на этот хакатон")) := by
  have h := accept_failure_leaves_pending dbInv 20 2 _
    (.valueError "Пользователь не зарегистрирован на этот хакатон") rfl rfl rfl rfl
  exact ⟨h.1, h.2.2.1, h.2.2.2⟩

/-- Witness for C4: rejecting pending invitation 20 follows an allowed
transition, and re-resolving the already-rejected invitation fails with
the already-processed error. -/
theorem invitation_no_terminal_exit_witness :
    (∃ i' ∈ (applyOp (TeamOp.resolveInvitation 20 InvitationStatus.rejected 3) dbRm).invitations,
      i'.id = (⟨20, 10, 1, 3, InvitationStatus.pending, none, 0⟩ : Invitation).id ∧
      (i'.status = (⟨20, 10, 1, 3, InvitationStatus.pending, none, 0⟩ : Invitation).status ∨
        ((⟨20, 10, 1, 3, InvitationStatus.pending, none, 0⟩ : Invitation).status =
            InvitationStatus.pending ∧
          (i'.status = InvitationStatus.accepted ∨
           i'.status = InvitationStatus.rejected)))) ∧
    update_invitation_status dbTerm 20 InvitationStatus.accepted 3 =
      (dbTerm, .error (.valueError "Приглашение уже было обработано")) := by
  refine ⟨invitation_no_terminal_exit.1 (TeamOp.resolveInvitation 20 InvitationStatus.rejected 3)
    dbRm ⟨by decide, by decide⟩ _ (by decide), ?_⟩
  exact invitation_no_terminal_exit.2 dbTerm 20 InvitationStatus.accepted 3 _ rfl rfl (by decide)

/-- Witness for the C3 amended statement: adding user 2, already a member
of team 10, fails with the already-a-member error. -/
theorem add_member_rejects_existing_member_witness :
    add_team_member dbRm 10 2 TeamMemberRole.member =
      (dbRm, .error (.valueError "Пользователь уже состоит в команде")) :=
  add_member_rejects_existing_member dbRm 10 2 TeamMemberRole.member _ _ _ rfl rfl rfl

/-- Witness for the C8 amended statement: with duplicate-free skill rows
python, java and the duplicate-free filter list python, java, result
membership coincides with possessing both skills. -/
theorem skills_filter_row_count_iff_witness :
    (({ id := 1, telegram_username := "alice", full_name := none, position := none,
        about := none, created_at := 0 } : User) ∈
      search_users_filtered dbSearch2
        { skills := some ["python", "java"], search := none, position := none } none ↔
      (({ id := 1, telegram_username := "alice", full_name := none, position := none,
          about := none, created_at := 0 } : User) ∈ dbSearch2.users ∧
       passes_hackathon dbSearch2 none 1 = true ∧
       passes_search { skills := some ["python", "java"], search := none, position := none }
         { id := 1, telegram_username := "alice", full_name := none, position := none,
           about := none, created_at := 0 } = true ∧
       passes_position { skills := some ["python", "java"], search := none, position := none }
         { id := 1, telegram_username := "alice", full_name := none, position := none,
           about := none, created_at := 0 } = true ∧
       ∀ s ∈ ["python", "java"], s ∈ user_skill_names dbSearch2 1)) := by
  exact skills_filter_row_count_iff dbSearch2
    { skills := some ["python", "java"], search := none, position := none } none
    { id := 1, telegram_username := "alice", full_name := none, position := none,
      about := none, created_at := 0 }
    ["python", "java"] rfl (by decide) (by decide) (by decide)

end HackathonApp
